import Mathlib

/-!
Shallow embedding of the core of `s3mpc` (an S3 incomplete-multipart-upload
cleaner written in Go) in Lean 4, together with theorems settling the frozen
claims about it.

Conventions of the embedding:
* Go `time.Time` / `time.Duration` values are modelled as `Int` nanoseconds
  (`time.Duration` is an `int64` nanosecond count in Go; a `time.Time` is
  identified with its nanosecond instant, the zero time being `0`).
  `time.Since(t)` becomes `now - t` with an explicit `now` parameter.
* Remote S3 calls are modelled by oracle parameters: a per-record abort
  outcome, a per-bucket sequence of listing responses, a per-record size
  lookup outcome, a bucket-location fetch.  The call trace that a function
  issues (e.g. the aborts it performs) is returned explicitly so that frame
  properties ("no abort call is issued") are statable.
* Go byte-level string handling (`strings.TrimSpace`, `strings.ToUpper`,
  indexing) is modelled on `List Char`, with Go's ASCII-oriented predicates
  redefined over code points.
* Goroutine fan-out with a semaphore and a results channel delivers results
  in nondeterministic order; the embedding processes units in input order.
  Every claim proved here is order-insensitive (counts, sets, aggregates).
* `strconv.ParseFloat` / `strconv.ParseInt` are modelled on unsigned/signed
  integral numerals, on which the Go parse is exact; fractional numerals go
  through binary floating point in Go and are outside this model.  The one
  floating-point computation the claims touch (the retry backoff
  `float64(base) * factor^attempt`) is exact for the default configuration
  and is modelled over `ℚ` with the Go truncation to `time.Duration`.
-/

namespace S3mpc

/-! ## Durations (nanoseconds, mirroring Go `time` constants) -/

def nanosecond : Int := 1

def millisecond : Int := 1000000

def second : Int := 1000 * millisecond

def minute : Int := 60 * second

def hour : Int := 60 * minute

def day : Int := 24 * hour

/-! ## Byte-level character helpers (Go `strings`/`strconv` primitives) -/

/-- Go `unicode.IsDigit` restricted to ASCII as `strconv` sees numerals. -/
def isDigitCh (c : Char) : Bool := 48 ≤ c.toNat && c.toNat ≤ 57

/-- Go whitespace set used by `strings.TrimSpace` (ASCII part). -/
def isSpaceCh (c : Char) : Bool :=
  c.toNat == 32 || c.toNat == 9 || c.toNat == 10 || c.toNat == 13 ||
    c.toNat == 11 || c.toNat == 12

/-- Go `strings.ToUpper` on one ASCII character. -/
def toUpperCh (c : Char) : Char :=
  if 97 ≤ c.toNat && c.toNat ≤ 122 then Char.ofNat (c.toNat - 32) else c

/-- Go `strings.ToLower` on one ASCII character. -/
def toLowerCh (c : Char) : Char :=
  if 65 ≤ c.toNat && c.toNat ≤ 90 then Char.ofNat (c.toNat + 32) else c

/-- Go `strings.TrimSpace` modelled on the character list. -/
def trimChars (cs : List Char) : List Char :=
  ((cs.dropWhile isSpaceCh).reverse.dropWhile isSpaceCh).reverse

/-- Value of a digit list read in base 10. -/
def digitsToNat (cs : List Char) : Nat :=
  cs.foldl (fun n c => n * 10 + (c.toNat - 48)) 0

/-- Go `strconv.ParseFloat`/the digits part of `strconv.ParseInt`, restricted
to nonempty all-digit numerals (on which the Go parse is exact; fractional
numerals are outside the model, see the file header). -/
def parseNatDigits (cs : List Char) : Option Nat :=
  if cs ≠ [] ∧ cs.all isDigitCh then some (digitsToNat cs) else none

/-- Go `strconv.ParseInt(s, 10, 64)` modelled on integral numerals with an
optional sign (the int64 range check is outside the model). -/
def parseIntChars : List Char → Option Int
  | [] => none
  | c :: rest =>
    if c = '-' then (parseNatDigits rest).map (fun n => -(n : Int))
    else if c = '+' then (parseNatDigits rest).map (fun n => (n : Int))
    else (parseNatDigits (c :: rest)).map (fun n => (n : Int))

/-! ## Data model (`pkg/types`) -/

/-- Record of one incomplete multipart upload (`types.MultipartUpload`). -/
structure MultipartUpload where
  bucket : String
  key : String
  uploadID : String
  initiated : Int
  size : Int
  storageClass : String
  region : String
deriving Repr, DecidableEq

/-- An S3 bucket reference (`types.Bucket`, sans the unused uploads field). -/
structure Bucket where
  name : String
  region : String
deriving Repr, DecidableEq

/-- Options for listing (`types.ListOptions`). -/
structure ListOptions where
  region : String := ""
  bucketName : String := ""
  maxResults : Int := 0
  offset : Int := 0
deriving Repr, DecidableEq

/-- Options for deletion (`types.DeleteOptions`). -/
structure DeleteOptions where
  dryRun : Bool := false
  force : Bool := false
  olderThan : Option Int := none
  smallerThan : Option Int := none
  largerThan : Option Int := none
  bucketName : String := ""
  quiet : Bool := false
deriving Repr, DecidableEq

/-- Validation of a record (`MultipartUpload.Validate`).  `Initiated.IsZero()`
is the instant `0` in the nanosecond model. -/
def MultipartUpload.validate (m : MultipartUpload) : Except String Unit :=
  if trimChars m.bucket.toList = [] then .error "bucket name cannot be empty"
  else if trimChars m.key.toList = [] then .error "key cannot be empty"
  else if trimChars m.uploadID.toList = [] then .error "upload ID cannot be empty"
  else if m.initiated = 0 then .error "initiated time cannot be zero"
  else if m.size < 0 then .error "size cannot be negative"
  else if trimChars m.storageClass.toList = [] then .error "storage class cannot be empty"
  else if trimChars m.region.toList = [] then .error "region cannot be empty"
  else .ok ()

/-- Validation of list options (`ListOptions.Validate`). -/
def ListOptions.validate (l : ListOptions) : Except String Unit :=
  if l.maxResults < 0 then .error "max results cannot be negative"
  else if l.offset < 0 then .error "offset cannot be negative"
  else .ok ()

/-- Validation of delete options (`DeleteOptions.Validate`). -/
def DeleteOptions.validate (d : DeleteOptions) : Except String Unit :=
  match d.smallerThan, d.largerThan with
  | some s, _ =>
    if s < 0 then .error "smaller than value cannot be negative"
    else match d.largerThan with
      | some l =>
        if l < 0 then .error "larger than value cannot be negative"
        else if s ≤ l then .error "smaller than value must be greater than larger than value"
        else .ok ()
      | none => .ok ()
  | none, some l =>
    if l < 0 then .error "larger than value cannot be negative" else .ok ()
  | none, none => .ok ()

/-! ## Filter engine (`pkg/filter/engine.go`) -/

/-- Filter predicate on age or size (`interfaces.AgeFilter`/`SizeFilter`):
an operator among `>`, `<`, `>=`, `<=`, `=`, `!=` and a raw value string. -/
structure NumFilter where
  operator : String
  value : String
deriving Repr, DecidableEq

/-- Parse an age duration such as `7d`, `1w`, `1m`, `1y`
(`Engine.parseAgeDuration`).  The `num < 0` branch of the source is
unreachable in the integral-numeral model (a sign makes the parse fail). -/
def parseAgeDuration (value : String) : Except String Int :=
  let cs := value.toList
  if cs.length < 2 then .error s!"invalid age format: {value}"
  else
    let numStr := cs.take (cs.length - 1)
    let unit := (cs.drop (cs.length - 1)).map toLowerCh
    match parseNatDigits numStr with
    | none => .error s!"invalid number in age: {value}"
    | some num =>
      match unit with
      | ['d'] => .ok ((num : Int) * day)
      | ['w'] => .ok ((num : Int) * (7 * day))
      | ['m'] => .ok ((num : Int) * (30 * day))
      | ['y'] => .ok ((num : Int) * (365 * day))
      | _ => .error s!"invalid age unit in: {value}"

/-- Operator dispatch of `Engine.matchesAgeFilter` on the computed upload age
and the parsed filter duration.  Equality and inequality use the source's
1-hour tolerance window. -/
def ageOpMatches (uploadAge : Int) (operator : String) (filterDuration : Int) : Bool :=
  match operator with
  | ">" => uploadAge > filterDuration
  | "<" => uploadAge < filterDuration
  | ">=" => uploadAge ≥ filterDuration
  | "<=" => uploadAge ≤ filterDuration
  | "=" =>
    let diff := uploadAge - filterDuration
    (if diff < 0 then -diff else diff) ≤ hour
  | "!=" =>
    let diff := uploadAge - filterDuration
    (if diff < 0 then -diff else diff) > hour
  | _ => false

/-- Whether a record matches an age predicate (`Engine.matchesAgeFilter`);
the record's age is `now - initiated` (`time.Since(upload.Initiated)`). -/
def matchesAgeFilter (now : Int) (upload : MultipartUpload) (f : NumFilter) : Bool :=
  match parseAgeDuration f.value with
  | .error _ => false
  | .ok filterDuration => ageOpMatches (now - upload.initiated) f.operator filterDuration

/-- Multiplier of a size unit (`Engine.parseSizeBytes`, unit switch):
binary 1024-based multiples. -/
def sizeUnitMultiplier (unit : List Char) : Option Int :=
  match unit with
  | ['B'] | [] => some 1
  | ['K', 'B'] => some 1024
  | ['M', 'B'] => some (1024 * 1024)
  | ['G', 'B'] => some (1024 * 1024 * 1024)
  | ['T', 'B'] => some (1024 * 1024 * 1024 * 1024)
  | _ => none

/-- Index of the rightmost digit-or-dot character, mirroring the backwards
scan of `Engine.parseSizeBytes` that splits number from unit. -/
def numSplitIdx : List Char → Option Nat
  | [] => none
  | c :: rest =>
    match numSplitIdx rest with
    | some i => some (i + 1)
    | none => if isDigitCh c || c = '.' then some 0 else none

/-- Parse a size value (`Engine.parseSizeBytes`): after trimming and
upper-casing, a value of fewer than 2 characters is rejected, then a bare
(signed) integral numeral is read as a byte count, and otherwise the value is
split into number and unit at the rightmost digit-or-dot position.  The
`num < 0` check of the unit branch is unreachable in the integral-numeral
model. -/
def parseSizeBytes (value : String) : Except String Int :=
  let v : List Char := (trimChars value.toList).map toUpperCh
  if v.length < 2 then .error s!"invalid size format: {value}"
  else
    match parseIntChars v with
    | some num =>
      if num < 0 then .error s!"size cannot be negative: {value}" else .ok num
    | none =>
      match numSplitIdx v with
      | none => .error s!"invalid size format, no number found: {value}"
      | some i =>
        match parseNatDigits (v.take (i + 1)) with
        | none => .error s!"invalid number in size: {value}"
        | some num =>
          match sizeUnitMultiplier (v.drop (i + 1)) with
          | none => .error s!"invalid size unit in: {value}"
          | some mult => .ok ((num : Int) * mult)

/-- Operator dispatch of `Engine.matchesSizeFilter` on the record size and the
parsed filter size: all six comparisons are exact integer comparisons. -/
def sizeOpMatches (size : Int) (operator : String) (filterSize : Int) : Bool :=
  match operator with
  | ">" => size > filterSize
  | "<" => size < filterSize
  | ">=" => size ≥ filterSize
  | "<=" => size ≤ filterSize
  | "=" => size = filterSize
  | "!=" => size ≠ filterSize
  | _ => false

/-- Whether a record matches a size predicate (`Engine.matchesSizeFilter`). -/
def matchesSizeFilter (upload : MultipartUpload) (f : NumFilter) : Bool :=
  match parseSizeBytes f.value with
  | .error _ => false
  | .ok filterSize => sizeOpMatches upload.size f.operator filterSize

/-! ## Retrying rate-limited client (`pkg/aws/client.go`) -/

/-- Retry behaviour configuration (`aws.RetryConfig`).  Delays are nanosecond
counts; the backoff factor, a `float64` in Go, is a rational. -/
structure RetryConfig where
  maxRetries : Nat
  baseDelay : Int
  maxDelay : Int
  backoffFactor : ℚ
deriving Repr, DecidableEq

/-- Default retry configuration (`aws.DefaultRetryConfig`): 3 retries, 100 ms
base delay, 30 s maximum delay, factor 2. -/
def DefaultRetryConfig : RetryConfig :=
  { maxRetries := 3
    baseDelay := 100 * millisecond
    maxDelay := 30 * second
    backoffFactor := 2 }

/-- Inner scan of the Go helper `containsSubstring`: does `sub` occur in `s`
at some offset? -/
def containsSubstring (s sub : List Char) : Bool :=
  (List.range (s.length - sub.length + 1)).any fun i =>
    (s.drop i).take sub.length == sub

/-- Substring test of `client.go` (`contains`), written over the
prefix/suffix/inner-scan disjunction of the source. -/
def goContains (s sub : List Char) : Bool :=
  s.length ≥ sub.length &&
    (s == sub ||
      (s.length > sub.length &&
        (s.take sub.length == sub ||
          s.drop (s.length - sub.length) == sub ||
          containsSubstring s sub)))

/-- Error tokens treated as retryable (`S3Client.isRetryableError`). -/
def retryableTokens : List String :=
  ["RequestTimeout", "ServiceUnavailable", "InternalError", "SlowDown",
   "TooManyRequests", "RequestTimeTooSkewed"]

/-- Retryability classifier (`S3Client.isRetryableError`) on the error
message string.  The typed branches of the source (network timeouts, the
`NoSuchBucket` type) concern Go error values with no string content and are
outside the string model; the token scan is embedded exactly. -/
def isRetryableErrorStr (e : String) : Bool :=
  retryableTokens.any fun tok => goContains e.toList tok.toList

/-- Truncating conversion from the exact rational value of the Go `float64`
product to a `time.Duration` (`int64` nanoseconds): Go truncates toward
zero, as does `Int` division by the positive denominator. -/
def durOfRat (q : ℚ) : Int := q.num / (q.den : Int)

/-- Backoff delay of a retry attempt (`S3Client.calculateBackoffDelay`):
`base * factor^attempt`, capped at the maximum delay. -/
def calculateBackoffDelay (cfg : RetryConfig) (attempt : Nat) : Int :=
  let delay := durOfRat ((cfg.baseDelay : ℚ) * cfg.backoffFactor ^ attempt)
  if delay > cfg.maxDelay then cfg.maxDelay else delay

/-- Loop body of `S3Client.executeWithRetry`, recursing on the number of
attempts still allowed after the current one (`cfg.maxRetries - attempt`).
`op k` is the outcome of the `k`-th execution of the operation (`none` is
success); `retryable` classifies failures.  Returns the number of times the
operation was executed, the list of backoff sleeps performed, and the final
outcome.  The rate-limiter wait and the cancellation select of the source are
suspension points with no effect on this data. -/
def retryAux (cfg : RetryConfig) (op : Nat → Option String) (retryable : String → Bool) :
    Nat → Nat → List Int → Nat × List Int × Except String Unit
  | 0, attempt, sleeps =>
    match op attempt with
    | none => (attempt + 1, sleeps, .ok ())
    | some e =>
      (attempt + 1, sleeps,
        .error s!"operation failed after {cfg.maxRetries} retries: {e}")
  | rem + 1, attempt, sleeps =>
    match op attempt with
    | none => (attempt + 1, sleeps, .ok ())
    | some e =>
      if !retryable e then (attempt + 1, sleeps, .error e)
      else retryAux cfg op retryable rem (attempt + 1)
        (sleeps ++ [calculateBackoffDelay cfg attempt])

/-- Retry loop (`S3Client.executeWithRetry`): attempts `0..maxRetries`. -/
def executeWithRetry (cfg : RetryConfig) (op : Nat → Option String)
    (retryable : String → Bool) : Nat × List Int × Except String Unit :=
  retryAux cfg op retryable cfg.maxRetries 0 []

/-! ## Region-caching bucket service (`pkg/services/bucket.go`) -/

/-- Overwriting insertion into an association list, modelling a Go map
store `m[k] = v`. -/
def setKey {α : Type} : List (String × α) → String → α → List (String × α)
  | [], k, v => [(k, v)]
  | (k', v') :: t, k, v =>
    if k' = k then (k, v) :: t else (k', v') :: setKey t k v

/-- Mutable state of `BucketService`: the region cache, the per-entry store
timestamps, and the expiry (1 hour in `NewBucketService`). -/
structure BucketServiceState where
  regionCache : List (String × String)
  cacheTime : List (String × Int)
  cacheExpiry : Int
deriving Repr, DecidableEq

/-- Fresh state as built by `NewBucketService`. -/
def newBucketServiceState : BucketServiceState :=
  { regionCache := [], cacheTime := [], cacheExpiry := 1 * hour }

/-- Fetch-and-store path of `BucketService.GetBucketRegion` (cache miss or
expired entry): call `GetBucketLocation`, normalise an empty location
constraint to `us-east-1`, store value and current time. -/
def fetchBucketRegion (now : Int) (fetch : String → Except String String)
    (s : BucketServiceState) (bucketName : String) :
    Except String String × BucketServiceState × Bool :=
  match fetch bucketName with
  | .error e =>
    (.error s!"failed to get bucket location for {bucketName}: {e}", s, true)
  | .ok loc =>
    let region := if loc = "" then "us-east-1" else loc
    (.ok region,
      { s with
        regionCache := setKey s.regionCache bucketName region
        cacheTime := setKey s.cacheTime bucketName now }, true)

/-- Region lookup with caching (`BucketService.GetBucketRegion`).  `fetch` is
the remote `GetBucketLocation` call; the third component of the result
records whether that remote call was made. -/
def GetBucketRegion (now : Int) (fetch : String → Except String String)
    (s : BucketServiceState) (bucketName : String) :
    Except String String × BucketServiceState × Bool :=
  match s.regionCache.lookup bucketName with
  | some cachedRegion =>
    match s.cacheTime.lookup bucketName with
    | some cacheTime =>
      if now - cacheTime < s.cacheExpiry then (.ok cachedRegion, s, false)
      else fetchBucketRegion now fetch s bucketName
    | none => fetchBucketRegion now fetch s bucketName
  | none => fetchBucketRegion now fetch s bucketName

/-! ## Upload service (`pkg/services/upload.go`) -/

/-- One entry of a remote `ListMultipartUploads` page
(`s3types.MultipartUpload`): the pointer-typed key, upload id and initiation
timestamp may be absent, the storage class is an enum string whose zero value
is `""`. -/
structure RawUpload where
  key : Option String
  uploadId : Option String
  initiated : Option Int
  storageClass : String
deriving Repr, DecidableEq

/-- One remote `ListMultipartUploads` response page
(`s3.ListMultipartUploadsOutput`; the continuation markers are threaded
implicitly by the page sequence of the oracle). -/
structure MUPage where
  uploads : List RawUpload
  isTruncated : Option Bool
deriving Repr, DecidableEq

/-- Page-to-record conversion loop of `UploadService.listUploadsForBucket`:
entries with an absent key, upload id or initiation timestamp are skipped; an
empty storage class defaults to `STANDARD`; size starts at 0; bucket and
region come from the bucket reference. -/
def convertUploads (bucket : Bucket) (raws : List RawUpload) : List MultipartUpload :=
  raws.filterMap fun r =>
    match r.key, r.uploadId, r.initiated with
    | some k, some uid, some t =>
      some
        { bucket := bucket.name
          key := k
          uploadID := uid
          initiated := t
          size := 0
          storageClass := if r.storageClass = "" then "STANDARD" else r.storageClass
          region := bucket.region }
    | _, _, _ => none

/-- Pagination loop of `UploadService.listUploadsForBucket` over the oracle's
page trace.  Before each remote call, when a result cap is set, the loop
stops once the cap is reached (the shrunken `MaxUploads` request field only
sizes the next page and is reflected in the oracle's trace).  A truncated
response continues with the next page of the trace; a well-formed trace ends
with an untruncated page, and an exhausted trace ends the loop. -/
def listUploadsForBucketAux (bucket : Bucket) (opts : ListOptions) :
    List (Except String MUPage) → List MultipartUpload →
    Except String (List MultipartUpload)
  | [], acc => .ok acc
  | page :: rest, acc =>
    if opts.maxResults > 0 ∧ opts.maxResults - (acc.length : Int) ≤ 0 then .ok acc
    else
      match page with
      | .error e =>
        .error s!"failed to list multipart uploads for bucket {bucket.name}: {e}"
      | .ok p =>
        let acc := acc ++ convertUploads bucket p.uploads
        if p.isTruncated = some true then listUploadsForBucketAux bucket opts rest acc
        else .ok acc

/-- Per-bucket listing (`UploadService.listUploadsForBucket`), with the
remote `ListMultipartUploads` call modelled by its response trace. -/
def listUploadsForBucket (bucket : Bucket) (opts : ListOptions)
    (pages : List (Except String MUPage)) : Except String (List MultipartUpload) :=
  listUploadsForBucketAux bucket opts pages []

/-- Offset/limit pagination (`UploadService.applyPagination`).  Go slicing
`uploads[start:end]` is `drop`/`take`; callers have validated a nonnegative
offset (a negative one would panic the Go slice expression). -/
def applyPagination (uploads : List MultipartUpload) (opts : ListOptions) :
    List MultipartUpload :=
  let start := opts.offset
  if start ≥ (uploads.length : Int) then []
  else
    let stop : Int :=
      if opts.maxResults > 0 ∧ start + opts.maxResults < (uploads.length : Int) then
        start + opts.maxResults
      else (uploads.length : Int)
    (uploads.drop start.toNat).take (stop - start).toNat

/-- Whether an `Except` result is an error. -/
def isErrE {ε α : Type} : Except ε α → Bool
  | .error _ => true
  | .ok _ => false

/-- Multi-bucket listing (`UploadService.listUploadsForBuckets`): every
bucket is listed (a failure does not abort the others), successful records
are merged (the fan-in channel order is modelled as input order; the claims
proved about this function are order-insensitive), pagination is applied when
requested, and a positive number of failed buckets yields the partial records
together with one aggregate error counting the failures. -/
def listUploadsForBuckets (pagesOf : Bucket → List (Except String MUPage))
    (buckets : List Bucket) (opts : ListOptions) :
    List MultipartUpload × Except String Unit :=
  let results := buckets.map fun b => listUploadsForBucket b opts (pagesOf b)
  let allUploads := results.foldl
    (fun acc r => match r with | .ok us => acc ++ us | .error _ => acc) []
  let errCount := results.countP fun r => isErrE r
  let paged :=
    if opts.offset > 0 ∨ opts.maxResults > 0 then applyPagination allUploads opts
    else allUploads
  if errCount > 0 then
    (paged, .error s!"failed to list uploads for some buckets: {errCount} errors occurred")
  else (paged, .ok ())

/-- Single-record deletion (`UploadService.DeleteUpload`): validate, then
abort.  `abortOp` is the remote `AbortMultipartUpload` outcome; the first
component is the list of abort calls issued. -/
def DeleteUpload (abortOp : MultipartUpload → Except String Unit)
    (u : MultipartUpload) : List MultipartUpload × Except String Unit :=
  match u.validate with
  | .error e => ([], .error s!"invalid upload: {e}")
  | .ok _ =>
    match abortOp u with
    | .error e =>
      ([u], .error s!"failed to abort multipart upload {u.uploadID} in bucket {u.bucket}: {e}")
    | .ok _ => ([u], .ok ())

/-- Result record of a deletion batch (`services.DeletionResult`; the
wall-clock duration field is outside the model). -/
structure DeletionResult where
  totalProcessed : Nat
  successfulDeletes : Nat
  failedDeletes : Nat
  storageFreed : Int
  errors : List (MultipartUpload × String)
deriving Repr, DecidableEq

/-- Deletion batch with progress reporting
(`UploadService.deleteUploadsWithProgress`).  Returns the abort calls issued,
the final `DeletionResult` handed to the reporter, and the return value: `nil`
when no record failed, otherwise one aggregate error counting failures out of
the batch size.  Worker fan-out is modelled in input order (all reported
quantities are order-insensitive counts and sums); the periodic progress
snapshots read the same counters and are not separately modelled. -/
def deleteUploadsWithProgress (abortOp : MultipartUpload → Except String Unit)
    (uploads : List MultipartUpload) :
    List MultipartUpload × DeletionResult × Except String Unit :=
  if uploads.isEmpty then ([], ⟨0, 0, 0, 0, []⟩, .ok ())
  else
    let results := uploads.map fun u => (u, DeleteUpload abortOp u)
    let aborts := results.foldl (fun acc r => acc ++ r.2.1) []
    let errs := results.filterMap fun r =>
      match r.2.2 with | .error e => some (r.1, e) | .ok _ => none
    let successCount := results.countP fun r => !isErrE r.2.2
    let storageFreed := results.foldl
      (fun acc r => if isErrE r.2.2 then acc else acc + r.1.size) 0
    let result : DeletionResult :=
      ⟨uploads.length, successCount, errs.length, storageFreed, errs⟩
    if errs.length > 0 then
      (aborts, result, .error s!"failed to delete {errs.length} out of {uploads.length} uploads")
    else (aborts, result, .ok ())

/-- Selector filtering of `UploadService.DeleteUploads`
(`filterUploadsForDeletion`, duplicated verbatim in `DryRunService`): bucket
match, age at least the threshold, size strictly inside the configured
band. -/
def filterUploadsForDeletion (now : Int) (uploads : List MultipartUpload)
    (opts : DeleteOptions) : List MultipartUpload :=
  uploads.filter fun u =>
    (opts.bucketName == "" || u.bucket == opts.bucketName) &&
    (match opts.olderThan with
     | none => true
     | some d => decide (now - u.initiated ≥ d)) &&
    (match opts.smallerThan with
     | none => true
     | some sz => decide (u.size < sz)) &&
    (match opts.largerThan with
     | none => true
     | some sz => decide (u.size > sz))

/-! ## Dry-run service (`pkg/services/dryrun.go`) -/

/-- Increment of a Go counter map entry (`result.UploadsByBucket[k]++`),
modelled on an association list in first-insertion order. -/
def bumpCount (m : List (String × Nat)) (k : String) : List (String × Nat) :=
  match m.lookup k with
  | some n => setKey m k (n + 1)
  | none => m ++ [(k, 1)]

/-- Addition into a Go sum map entry (`result.SizeByBucket[k] += v`). -/
def bumpSum (m : List (String × Int)) (k : String) (v : Int) : List (String × Int) :=
  match m.lookup k with
  | some n => setKey m k (n + v)
  | none => m ++ [(k, v)]

/-- Count of records per key (`DryRunService.calculateBreakdowns`, count
maps). -/
def countByKey (f : MultipartUpload → String) (uploads : List MultipartUpload) :
    List (String × Nat) :=
  uploads.foldl (fun m u => bumpCount m (f u)) []

/-- Sum of record sizes per key (`DryRunService.calculateBreakdowns`, size
maps). -/
def sumSizeByKey (f : MultipartUpload → String) (uploads : List MultipartUpload) :
    List (String × Int) :=
  uploads.foldl (fun m u => bumpSum m (f u) u.size) []

/-- Keys in first-appearance order, modelling the grouping maps of
`DryRunService.calculateCostBreakdowns`. -/
def distinctKeys (f : MultipartUpload → String) (uploads : List MultipartUpload) :
    List String :=
  uploads.foldl (fun acc u => if f u ∈ acc then acc else acc ++ [f u]) []

/-- Per-group savings (`DryRunService.calculateCostBreakdowns`): the cost
estimator is consulted per group and groups whose estimate fails are simply
absent from the map. -/
def savingsByKey (est : List MultipartUpload → Except String ℚ)
    (f : MultipartUpload → String) (uploads : List MultipartUpload) :
    List (String × ℚ) :=
  (distinctKeys f uploads).filterMap fun k =>
    match est (uploads.filter fun u => f u == k) with
    | .ok s => some (k, s)
    | .error _ => none

/-- Total of record sizes (`DryRunService.calculateTotalSize`). -/
def calculateTotalSize (uploads : List MultipartUpload) : Int :=
  uploads.foldl (fun acc u => acc + u.size) 0

/-- Result of a dry-run simulation (`types.DryRunResult`).  The wall-clock
`GeneratedAt` timestamp and the `Command`/`Filters` display strings are
presentation data outside the model. -/
structure DryRunResult where
  totalUploads : Nat
  totalSize : Int
  estimatedSavings : ℚ
  currency : String
  uploadsByBucket : List (String × Nat)
  sizeByBucket : List (String × Int)
  savingsByBucket : List (String × ℚ)
  uploadsByRegion : List (String × Nat)
  sizeByRegion : List (String × Int)
  savingsByRegion : List (String × ℚ)
  uploadsByStorageClass : List (String × Nat)
  sizeByStorageClass : List (String × Int)
  savingsByStorageClass : List (String × ℚ)
  uploads : List MultipartUpload
deriving Repr, DecidableEq

/-- Dry-run simulation (`DryRunService.SimulateDeletion`): validate the
options, apply the same selector filtering as the actual deletion, ask the
cost estimator for the savings (a failed estimate degrades to 0), and build
the breakdowns.  No remote call and no mutation happens. -/
def SimulateDeletion (now : Int) (est : List MultipartUpload → Except String ℚ)
    (uploads : List MultipartUpload) (opts : DeleteOptions) :
    Except String DryRunResult :=
  match opts.validate with
  | .error e => .error s!"invalid delete options: {e}"
  | .ok _ =>
    let filtered := filterUploadsForDeletion now uploads opts
    let estimatedSavings := match est filtered with | .ok s => s | .error _ => 0
    .ok
      { totalUploads := filtered.length
        totalSize := calculateTotalSize filtered
        estimatedSavings := estimatedSavings
        currency := "USD"
        uploadsByBucket := countByKey (fun u => u.bucket) filtered
        sizeByBucket := sumSizeByKey (fun u => u.bucket) filtered
        savingsByBucket := savingsByKey est (fun u => u.bucket) filtered
        uploadsByRegion := countByKey (fun u => u.region) filtered
        sizeByRegion := sumSizeByKey (fun u => u.region) filtered
        savingsByRegion := savingsByKey est (fun u => u.region) filtered
        uploadsByStorageClass := countByKey (fun u => u.storageClass) filtered
        sizeByStorageClass := sumSizeByKey (fun u => u.storageClass) filtered
        savingsByStorageClass := savingsByKey est (fun u => u.storageClass) filtered
        uploads := filtered }

/-- Batch deletion entry point (`UploadService.DeleteUploads`): validate the
options, filter by the selector (an empty result is a terminal error), then
either simulate (dry run: report and return success, no abort issued), or —
after a confirmation unless forced — delete with progress.  The first
component is the list of abort calls issued; `confirm` is the outcome of
reading the interactive yes/no answer. -/
def DeleteUploads (now : Int) (abortOp : MultipartUpload → Except String Unit)
    (est : List MultipartUpload → Except String ℚ) (confirm : Except String Bool)
    (uploads : List MultipartUpload) (opts : DeleteOptions) :
    List MultipartUpload × Except String Unit :=
  match opts.validate with
  | .error e => ([], .error s!"invalid delete options: {e}")
  | .ok _ =>
    let filteredUploads := filterUploadsForDeletion now uploads opts
    if filteredUploads.isEmpty then
      ([], .error "no uploads match the specified criteria")
    else if opts.dryRun then
      match SimulateDeletion now est filteredUploads opts with
      | .error e => ([], .error s!"dry-run simulation failed: {e}")
      | .ok _ => ([], .ok ())
    else
      if !opts.force then
        match confirm with
        | .error e => ([], .error s!"failed to get confirmation: {e}")
        | .ok false => ([], .error "deletion cancelled by user")
        | .ok true =>
          let r := deleteUploadsWithProgress abortOp filteredUploads
          (r.1, r.2.2)
      else
        let r := deleteUploadsWithProgress abortOp filteredUploads
        (r.1, r.2.2)

/-! ## Size service (`pkg/services/size.go`) -/

/-- Result-collection step of `SizeService.calculateUploadSizes` for one
record's outcome: a sized record is appended to the successes; a failed
lookup records the (non-empty) bucket name once in the inaccessible list
(the `bucketErrorMap` dedup of the source is membership in the list built so
far). -/
def sizeStep (getSize : MultipartUpload → Except String Int)
    (acc : List MultipartUpload × List String) (u : MultipartUpload) :
    List MultipartUpload × List String :=
  match getSize u with
  | .ok size => (acc.1 ++ [{ u with size := size }], acc.2)
  | .error _ =>
    if u.bucket ≠ "" ∧ u.bucket ∉ acc.2 then (acc.1, acc.2 ++ [u.bucket])
    else acc

/-- Batch size calculation (`SizeService.calculateUploadSizes`): each
record's size is looked up (`GetUploadSize`, modelled by the `getSize`
oracle); a record whose lookup fails is dropped and its bucket recorded once
in the inaccessible-buckets list; the batch itself always returns a nil
error (the partial-result policy of the source).  The worker fan-out is
modelled in input order. -/
def calculateUploadSizes (getSize : MultipartUpload → Except String Int)
    (uploads : List MultipartUpload) :
    List MultipartUpload × List String × Except String Unit :=
  if uploads.isEmpty then (uploads, [], .ok ())
  else
    let r := uploads.foldl (sizeStep getSize) ([], [])
    (r.1, r.2, .ok ())

/-! ## Theorems -/

/-- Dropping a prefix by a predicate no element satisfies is the identity. -/
theorem dropWhile_eq_self_of_not {p : Char → Bool} {l : List Char}
    (h : ∀ c ∈ l, p c = false) : l.dropWhile p = l := by
  cases l with
  | nil => rfl
  | cons c t => simp [List.dropWhile_cons, h c (by simp)]

/-- Trimming a string none of whose characters is whitespace is the
identity. -/
theorem trimChars_eq_self {cs : List Char} (h : ∀ c ∈ cs, isSpaceCh c = false) :
    trimChars cs = cs := by
  unfold trimChars
  rw [dropWhile_eq_self_of_not h,
    dropWhile_eq_self_of_not (fun c hc => h c (List.mem_reverse.mp hc)),
    List.reverse_reverse]

/-- Digits are not whitespace. -/
theorem isSpaceCh_eq_false_of_digit {c : Char} (h : isDigitCh c = true) :
    isSpaceCh c = false := by
  simp only [isDigitCh, Bool.and_eq_true, decide_eq_true_eq] at h
  simp only [isSpaceCh, Bool.or_eq_false_iff, beq_eq_false_iff_ne, ne_eq]
  omega

/-- Upper-casing leaves a digit unchanged. -/
theorem toUpperCh_digit {c : Char} (h : isDigitCh c = true) : toUpperCh c = c := by
  simp only [isDigitCh, Bool.and_eq_true, decide_eq_true_eq] at h
  unfold toUpperCh
  rw [if_neg]
  simp only [Bool.and_eq_true, decide_eq_true_eq, not_and]
  omega

/-- Upper-casing an all-digit string is the identity. -/
theorem mapUpper_digits {cs : List Char} (h : ∀ c ∈ cs, isDigitCh c = true) :
    cs.map toUpperCh = cs := by
  induction cs with
  | nil => rfl
  | cons c t ih =>
    simp only [List.map_cons, toUpperCh_digit (h c (by simp)),
      ih (fun x hx => h x (by simp [hx])), List.cons.injEq, and_self]

/-- A digit is not the minus sign. -/
theorem digit_ne_minus {c : Char} (h : isDigitCh c = true) : ¬(c = '-') := by
  intro hc; subst hc; exact absurd h (by decide)

/-- A digit is not the plus sign. -/
theorem digit_ne_plus {c : Char} (h : isDigitCh c = true) : ¬(c = '+') := by
  intro hc; subst hc; exact absurd h (by decide)

/-- The modelled `strconv.ParseInt` succeeds on a nonempty all-digit
numeral with its base-10 value. -/
theorem parseIntChars_digits {cs : List Char} (hne : cs ≠ [])
    (h : ∀ c ∈ cs, isDigitCh c = true) :
    parseIntChars cs = some ((digitsToNat cs : Int)) := by
  cases cs with
  | nil => exact absurd rfl hne
  | cons c rest =>
    have hc := h c (by simp)
    rw [parseIntChars, if_neg (digit_ne_minus hc), if_neg (digit_ne_plus hc),
      parseNatDigits, if_pos]
    · rfl
    · refine ⟨by simp, ?_⟩
      simpa [List.all_eq_true] using h

/-- Bare-integer branch of `parseSizeBytes`: an all-digit value of at least
two characters parses to its base-10 value in bytes. -/
theorem parseSizeBytes_digits {cs : List Char} (h2 : 2 ≤ cs.length)
    (hd : cs.all isDigitCh = true) :
    parseSizeBytes (String.mk cs) = .ok ((digitsToNat cs : Int)) := by
  have hall : ∀ c ∈ cs, isDigitCh c = true := by
    simpa [List.all_eq_true] using hd
  have hv : (trimChars (String.mk cs).toList).map toUpperCh = cs := by
    show (trimChars cs).map toUpperCh = cs
    rw [trimChars_eq_self (fun c hc => isSpaceCh_eq_false_of_digit (hall c hc)),
      mapUpper_digits hall]
  unfold parseSizeBytes
  simp only [hv]
  rw [if_neg (by omega), parseIntChars_digits (by rintro rfl; simp at h2) hall]
  have hnonneg : ¬((digitsToNat cs : Int) < 0) := by
    simp only [not_lt]
    exact Int.ofNat_nonneg _
  simp [hnonneg]


/-- Retry loop behaviour when every execution fails with a retryable error:
the operation runs once per remaining attempt plus the final one, one backoff
sleep is performed per non-final failed attempt, and the outcome is an
error. -/
theorem retryAux_allRetryableFailures (cfg : RetryConfig) (op : Nat → Option String)
    (retryable : String → Bool) (hop : ∀ n, (op n).isSome = true)
    (hr : ∀ n e, op n = some e → retryable e = true) :
    ∀ rem attempt sleeps,
      (retryAux cfg op retryable rem attempt sleeps).1 = attempt + rem + 1
      ∧ (retryAux cfg op retryable rem attempt sleeps).2.1
          = sleeps ++ (List.range rem).map (fun i => calculateBackoffDelay cfg (attempt + i))
      ∧ isErrE (retryAux cfg op retryable rem attempt sleeps).2.2 = true := by
  intro rem
  induction rem with
  | zero =>
    intro attempt sleeps
    obtain ⟨e, he⟩ := Option.isSome_iff_exists.mp (hop attempt)
    simp [retryAux, he, isErrE]
  | succ rem ih =>
    intro attempt sleeps
    obtain ⟨e, he⟩ := Option.isSome_iff_exists.mp (hop attempt)
    have hstep : retryAux cfg op retryable (rem + 1) attempt sleeps
        = retryAux cfg op retryable rem (attempt + 1)
            (sleeps ++ [calculateBackoffDelay cfg attempt]) := by
      rw [retryAux, he]
      simp [hr attempt e he]
    rw [hstep]
    obtain ⟨ha, hs, herr⟩ := ih (attempt + 1) (sleeps ++ [calculateBackoffDelay cfg attempt])
    refine ⟨by omega, ?_, herr⟩
    rw [hs, List.range_succ_eq_map, List.map_cons, List.map_map, List.append_assoc,
      List.singleton_append]
    refine congrArg (fun l => sleeps ++ l) ?_
    refine congrArg₂ (fun a l => List.cons a l) (by rw [Nat.add_zero]) ?_
    apply List.map_congr_left
    intro i _
    simp only [Function.comp_apply]
    congr 1
    omega

/-- Looking up the key just stored finds the stored value. -/
theorem lookup_setKey {α : Type} (m : List (String × α)) (k : String) (v : α) :
    (setKey m k v).lookup k = some v := by
  induction m with
  | nil => simp [setKey]
  | cons p t ih =>
    obtain ⟨k', v'⟩ := p
    by_cases h : k' = k
    · simp [setKey, h]
    · have hb : (k == k') = false := beq_eq_false_iff_ne.mpr fun hk => h hk.symm
      simp [setKey, h, List.lookup, hb, ih]

/-- C7: after one successful region resolution for a bucket, a later
`GetBucketRegion` call whose cache-entry age is under the 1-hour expiry
returns the cached region with no remote `GetBucketLocation` call and leaves
the state untouched, while the first call at or past the expiry performs the
remote fetch again and — when it succeeds — re-stores the value with the new
timestamp. -/
theorem regionCacheReusedWithinTTLRefetchedAfter (s0 : BucketServiceState)
    (b : String) (t0 t1 t2 : Int)
    (fetch0 fetch1 fetch2 : String → Except String String) (loc : String)
    (hexp : s0.cacheExpiry = 1 * hour)
    (hmiss : s0.regionCache.lookup b = none)
    (hfetch : fetch0 b = .ok loc) :
    GetBucketRegion t0 fetch0 s0 b
      = (.ok (if loc = "" then "us-east-1" else loc),
         { s0 with
            regionCache := setKey s0.regionCache b (if loc = "" then "us-east-1" else loc)
            cacheTime := setKey s0.cacheTime b t0 }, true)
    ∧ (t1 - t0 < 1 * hour →
        GetBucketRegion t1 fetch1
          { s0 with
            regionCache := setKey s0.regionCache b (if loc = "" then "us-east-1" else loc)
            cacheTime := setKey s0.cacheTime b t0 } b
          = (.ok (if loc = "" then "us-east-1" else loc),
             { s0 with
               regionCache := setKey s0.regionCache b (if loc = "" then "us-east-1" else loc)
               cacheTime := setKey s0.cacheTime b t0 }, false))
    ∧ (1 * hour ≤ t2 - t0 →
        (GetBucketRegion t2 fetch2
          { s0 with
            regionCache := setKey s0.regionCache b (if loc = "" then "us-east-1" else loc)
            cacheTime := setKey s0.cacheTime b t0 } b).2.2 = true
        ∧ ∀ loc2, fetch2 b = .ok loc2 →
            (GetBucketRegion t2 fetch2
              { s0 with
                regionCache := setKey s0.regionCache b (if loc = "" then "us-east-1" else loc)
                cacheTime := setKey s0.cacheTime b t0 } b).2.1.cacheTime.lookup b
              = some t2
            ∧ (GetBucketRegion t2 fetch2
                { s0 with
                  regionCache := setKey s0.regionCache b (if loc = "" then "us-east-1" else loc)
                  cacheTime := setKey s0.cacheTime b t0 } b).1
              = .ok (if loc2 = "" then "us-east-1" else loc2)) := by
  have h0 : GetBucketRegion t0 fetch0 s0 b
      = (.ok (if loc = "" then "us-east-1" else loc),
         { s0 with
            regionCache := setKey s0.regionCache b (if loc = "" then "us-east-1" else loc)
            cacheTime := setKey s0.cacheTime b t0 }, true) := by
    unfold GetBucketRegion
    rw [hmiss]
    unfold fetchBucketRegion
    rw [hfetch]
  refine ⟨h0, ?_, ?_⟩
  · intro hlt
    simp only [GetBucketRegion, lookup_setKey, hexp]
    rw [if_pos hlt]
  · intro hge
    simp only [GetBucketRegion, lookup_setKey, hexp]
    rw [if_neg (by omega)]
    constructor
    · unfold fetchBucketRegion
      cases hf : fetch2 b <;> simp [hf]
    · intro loc2 hf
      unfold fetchBucketRegion
      rw [hf]
      exact ⟨lookup_setKey _ _ _, rfl⟩

/-- C7 witness: the theorem applied to a fresh cache, a fetch resolving
`eu-west-1` at time 0, a second lookup at time 10 (within the TTL), and a
third at exactly one hour (the expiry boundary, which refetches). -/
theorem regionCacheReusedWithinTTLWitness :
    GetBucketRegion 10 (fun _ => .error "boom")
        (GetBucketRegion 0 (fun _ => .ok "eu-west-1") newBucketServiceState "b").2.1 "b"
      = (.ok "eu-west-1",
         (GetBucketRegion 0 (fun _ => .ok "eu-west-1") newBucketServiceState "b").2.1,
         false)
    ∧ (GetBucketRegion (1 * hour) (fun _ => .ok "us-west-2")
        (GetBucketRegion 0 (fun _ => .ok "eu-west-1") newBucketServiceState "b").2.1 "b").2.2
      = true := by
  have h := regionCacheReusedWithinTTLRefetchedAfter newBucketServiceState "b" 0 10
    (1 * hour) (fun _ => .ok "eu-west-1") (fun _ => .error "boom")
    (fun _ => .ok "us-west-2") "eu-west-1" rfl rfl rfl
  have h1 := h.2.1 (by norm_num [hour, minute, second, millisecond])
  have h2 := (h.2.2 (by norm_num)).1
  exact ⟨by simpa using h1, h2⟩

/-- Counting via `filterMap` counts the inputs mapped to `some`. -/
theorem length_filterMap_eq_countP {α β : Type} (f : α → Option β) (l : List α) :
    (l.filterMap f).length = l.countP (fun x => (f x).isSome) := by
  induction l with
  | nil => rfl
  | cons a t ih =>
    cases h : f a <;> simp [List.filterMap_cons, h, List.countP_cons, ih]

/-- Counting the complement of a Boolean predicate. -/
theorem countP_not_eq_length_sub {α : Type} (p : α → Bool) (l : List α) :
    l.countP (fun a => !p a) = l.length - l.countP p := by
  induction l with
  | nil => rfl
  | cons a t ih =>
    have hle := List.countP_le_length (p := p) (l := t)
    by_cases h : p a = true <;>
      simp [List.countP_cons, h, ih] <;> omega

/-- Membership in a left fold that appends per-element lists. -/
theorem mem_foldl_append {α β : Type} (g : α → List β) (l : List α)
    (init : List β) (b : β) :
    b ∈ l.foldl (fun acc x => acc ++ g x) init ↔ b ∈ init ∨ ∃ x ∈ l, b ∈ g x := by
  induction l generalizing init with
  | nil => simp
  | cons a t ih =>
    rw [List.foldl_cons, ih]
    simp only [List.mem_append, List.mem_cons]
    constructor
    · rintro ((h | h) | ⟨x, hx, hb⟩)
      · exact Or.inl h
      · exact Or.inr ⟨a, Or.inl rfl, h⟩
      · exact Or.inr ⟨x, Or.inr hx, hb⟩
    · rintro (h | ⟨x, hx | hx, hb⟩)
      · exact Or.inl (Or.inl h)
      · exact Or.inl (Or.inr (hx ▸ hb))
      · exact Or.inr ⟨x, hx, hb⟩

/-- A non-error `Except String Unit` is exactly `ok ()`. -/
theorem isErrE_eq_false_iff (x : Except String Unit) :
    isErrE x = false ↔ x = .ok () := by
  cases x with
  | error e => simp [isErrE]
  | ok v => cases v; simp [isErrE]

/-- A successful per-record deletion issued exactly the one abort call for
its record. -/
theorem DeleteUpload_fst_of_ok {abortOp : MultipartUpload → Except String Unit}
    {u : MultipartUpload} (h : (DeleteUpload abortOp u).2 = .ok ()) :
    (DeleteUpload abortOp u).1 = [u] := by
  unfold DeleteUpload at h ⊢
  cases hv : u.validate <;> cases ha : abortOp u <;> simp_all

/-- The per-record outcome selector used to count failures of a deletion
batch. -/
def deleteFails (abortOp : MultipartUpload → Except String Unit)
    (u : MultipartUpload) : Bool :=
  isErrE (DeleteUpload abortOp u).2

/-- Error component of a nonempty deletion batch: an aggregate error counting
the failed records, or `ok` when none failed. -/
theorem deleteUploadsWithProgress_err (abortOp : MultipartUpload → Except String Unit)
    (uploads : List MultipartUpload) (h : uploads ≠ []) :
    (deleteUploadsWithProgress abortOp uploads).2.2
      = if 0 < uploads.countP (deleteFails abortOp) then
          .error s!"failed to delete {uploads.countP (deleteFails abortOp)} out of {uploads.length} uploads"
        else .ok () := by
  cases uploads with
  | nil => exact absurd rfl h
  | cons u0 rest =>
    have hlen : (((u0 :: rest).map fun u => (u, DeleteUpload abortOp u)).filterMap
        (fun r => match r.2.2 with | .error e => some (r.1, e) | .ok _ => none)).length
        = (u0 :: rest).countP (deleteFails abortOp) := by
      rw [length_filterMap_eq_countP, List.countP_map]
      refine List.countP_congr fun r _ => ?_
      simp only [Function.comp_apply]
      cases hres : (DeleteUpload abortOp r).2 <;>
        simp [deleteFails, isErrE, hres]
    simp only [deleteUploadsWithProgress, List.isEmpty_cons, Bool.false_eq_true,
      if_false, hlen]
    by_cases hc : 0 < (u0 :: rest).countP (deleteFails abortOp) <;>
      simp [hc]

/-- Success counter of a deletion batch: batch size minus failures. -/
theorem deleteUploadsWithProgress_succ (abortOp : MultipartUpload → Except String Unit)
    (uploads : List MultipartUpload) :
    (deleteUploadsWithProgress abortOp uploads).2.1.successfulDeletes
      = uploads.length - uploads.countP (deleteFails abortOp) := by
  cases uploads with
  | nil => rfl
  | cons u0 rest =>
    have hcnt : ((u0 :: rest).map fun u => (u, DeleteUpload abortOp u)).countP
        (fun r => !isErrE r.2.2) = (u0 :: rest).countP (fun u => !deleteFails abortOp u) := by
      rw [List.countP_map]
      refine List.countP_congr fun r _ => ?_
      simp only [Function.comp_apply]
      rfl
    simp only [deleteUploadsWithProgress, List.isEmpty_cons, Bool.false_eq_true,
      if_false]
    by_cases hc : 0 < (((u0 :: rest).map fun u => (u, DeleteUpload abortOp u)).filterMap
        (fun r => match r.2.2 with | .error e => some (r.1, e) | .ok _ => none)).length <;>
      simp only [gt_iff_lt, hc, if_true, if_false, hcnt, countP_not_eq_length_sub]

/-- The abort call of every record whose per-record deletion succeeded is in
the issued-calls trace of the batch. -/
theorem deleteUploadsWithProgress_mem_aborts
    (abortOp : MultipartUpload → Except String Unit)
    (uploads : List MultipartUpload) (u : MultipartUpload) (hu : u ∈ uploads)
    (hok : (DeleteUpload abortOp u).2 = .ok ()) :
    u ∈ (deleteUploadsWithProgress abortOp uploads).1 := by
  cases uploads with
  | nil => simp at hu
  | cons u0 rest =>
    have hmem : u ∈ (((u0 :: rest).map fun x => (x, DeleteUpload abortOp x)).foldl
        (fun acc r => acc ++ r.2.1) []) := by
      rw [mem_foldl_append]
      refine Or.inr ⟨(u, DeleteUpload abortOp u), List.mem_map_of_mem _ hu, ?_⟩
      rw [DeleteUpload_fst_of_ok hok]
      simp
    simp only [deleteUploadsWithProgress, List.isEmpty_cons, Bool.false_eq_true,
      if_false]
    split <;> exact hmem

/-- Folding the per-bucket results while keeping successes concatenates the
successful record lists after the accumulator. -/
theorem foldl_collectOk (l : List (Except String (List MultipartUpload)))
    (init : List MultipartUpload) :
    l.foldl (fun acc r => match r with | .ok us => acc ++ us | .error _ => acc) init
      = init ++ l.bind (fun r => match r with | .ok us => us | .error _ => []) := by
  induction l generalizing init with
  | nil => simp
  | cons r t ih =>
    cases r <;> simp [ih, List.append_assoc, List.cons_bind]

/-- Invariant of the size-batch collection fold: the successes are the
initial accumulator followed by the successfully sized records in order; a
bucket is in the inaccessible list iff it was there initially or is the
non-empty bucket of some record whose lookup failed; and the inaccessible
list stays duplicate-free. -/
theorem sizeStep_foldl_invariant (getSize : MultipartUpload → Except String Int)
    (l : List MultipartUpload) :
    ∀ acc1 acc2,
      (l.foldl (sizeStep getSize) (acc1, acc2)).1
        = acc1 ++ l.filterMap (fun u =>
            match getSize u with
            | .ok size => some { u with size := size }
            | .error _ => none)
      ∧ (∀ b, b ∈ (l.foldl (sizeStep getSize) (acc1, acc2)).2
          ↔ b ∈ acc2 ∨ (b ≠ "" ∧ ∃ u ∈ l, isErrE (getSize u) = true ∧ u.bucket = b))
      ∧ (acc2.Nodup → (l.foldl (sizeStep getSize) (acc1, acc2)).2.Nodup) := by
  induction l with
  | nil => intro acc1 acc2; simp
  | cons u t ih =>
    intro acc1 acc2
    rw [List.foldl_cons]
    cases hg : getSize u with
    | ok size =>
      have hstep : sizeStep getSize (acc1, acc2) u
          = (acc1 ++ [{ u with size := size }], acc2) := by
        simp [sizeStep, hg]
      rw [hstep]
      obtain ⟨h1, h2, h3⟩ := ih (acc1 ++ [{ u with size := size }]) acc2
      refine ⟨?_, ?_, h3⟩
      · rw [h1, List.filterMap_cons]
        simp [hg, List.append_assoc]
      · intro b
        rw [h2 b]
        simp [List.exists_mem_cons_iff, hg, isErrE]
    | error e =>
      by_cases hb : u.bucket ≠ "" ∧ u.bucket ∉ acc2
      · have hstep : sizeStep getSize (acc1, acc2) u = (acc1, acc2 ++ [u.bucket]) := by
          simp only [sizeStep, hg]
          rw [if_pos hb]
        rw [hstep]
        obtain ⟨h1, h2, h3⟩ := ih acc1 (acc2 ++ [u.bucket])
        refine ⟨?_, ?_, ?_⟩
        · rw [h1, List.filterMap_cons]
          simp [hg]
        · intro b
          rw [h2 b]
          simp only [List.mem_append, List.mem_singleton,
            List.exists_mem_cons_iff, hg, isErrE, true_and]
          constructor
          · rintro ((h | rfl) | ⟨hne, h⟩)
            · exact Or.inl h
            · exact Or.inr ⟨hb.1, Or.inl rfl⟩
            · exact Or.inr ⟨hne, Or.inr h⟩
          · rintro (h | ⟨hne, rfl | h⟩)
            · exact Or.inl (Or.inl h)
            · exact Or.inl (Or.inr rfl)
            · exact Or.inr ⟨hne, h⟩
        · intro hnd
          refine h3 ?_
          simp [List.nodup_append, hnd, hb.2]
      · have hstep : sizeStep getSize (acc1, acc2) u = (acc1, acc2) := by
          simp only [sizeStep, hg]
          rw [if_neg hb]
        rw [hstep]
        obtain ⟨h1, h2, h3⟩ := ih acc1 acc2
        push_neg at hb
        refine ⟨?_, ?_, h3⟩
        · rw [h1, List.filterMap_cons]
          simp [hg]
        · intro b
          rw [h2 b]
          simp only [List.exists_mem_cons_iff, hg, isErrE, true_and]
          constructor
          · rintro (h | ⟨hne, h⟩)
            · exact Or.inl h
            · exact Or.inr ⟨hne, Or.inr h⟩
          · rintro (h | ⟨hne, rfl | h⟩)
            · exact Or.inl h
            · exact Or.inl (hb hne)
            · exact Or.inr ⟨hne, h⟩

/-- C5: in the batch size-calculation pipeline, every record whose size
lookup fails is dropped from the returned set (exactly the successfully
sized records are returned, in order, with their computed sizes), a bucket
name appears in the inaccessible-buckets list at most once (the list is
duplicate-free, holding exactly the non-empty bucket names of failed
records), and the batch call returns a nil error even when some records
errored. -/
theorem sizeBatchPartialResultPolicy (getSize : MultipartUpload → Except String Int)
    (uploads : List MultipartUpload) :
    (calculateUploadSizes getSize uploads).2.2 = .ok ()
    ∧ (calculateUploadSizes getSize uploads).1
        = uploads.filterMap (fun u =>
            match getSize u with
            | .ok size => some { u with size := size }
            | .error _ => none)
    ∧ (calculateUploadSizes getSize uploads).2.1.Nodup
    ∧ ∀ b, b ∈ (calculateUploadSizes getSize uploads).2.1
        ↔ b ≠ "" ∧ ∃ u ∈ uploads, isErrE (getSize u) = true ∧ u.bucket = b := by
  cases uploads with
  | nil => simp [calculateUploadSizes]
  | cons u t =>
    obtain ⟨h1, h2, h3⟩ := sizeStep_foldl_invariant getSize (u :: t) [] []
    refine ⟨rfl, ?_, ?_, ?_⟩
    · simpa [calculateUploadSizes] using h1
    · simpa [calculateUploadSizes] using h3 List.nodup_nil
    · intro b
      have := h2 b
      simpa [calculateUploadSizes] using this

/-- Shape of a record produced by the page-to-record conversion: size 0, a
non-empty storage class, bucket and region from the bucket reference, and
the present raw fields carried over. -/
theorem mem_convertUploads {bucket : Bucket} {raws : List RawUpload}
    {u : MultipartUpload} (h : u ∈ convertUploads bucket raws) :
    u.size = 0 ∧ u.storageClass ≠ "" ∧ u.bucket = bucket.name ∧ u.region = bucket.region
    ∧ ∃ r ∈ raws, r.key = some u.key ∧ r.uploadId = some u.uploadID
        ∧ r.initiated = some u.initiated := by
  obtain ⟨r, hr, hf⟩ := List.mem_filterMap.mp h
  cases hk : r.key with
  | none => rw [hk] at hf; simp at hf
  | some k =>
    cases hid : r.uploadId with
    | none => rw [hk, hid] at hf; simp at hf
    | some uid =>
      cases hin : r.initiated with
      | none => rw [hk, hid, hin] at hf; simp at hf
      | some t0 =>
        rw [hk, hid, hin] at hf
        simp only [Option.some.injEq] at hf
        subst hf
        refine ⟨rfl, ?_, rfl, rfl, r, hr, hk, hid, hin⟩
        by_cases hsc : r.storageClass = "" <;> simp [hsc]

/-- Every record returned by the per-bucket pagination loop is in the
accumulator or converted from some successfully fetched page of the trace. -/
theorem listUploadsForBucketAux_mem (bucket : Bucket) (opts : ListOptions) :
    ∀ (pages : List (Except String MUPage)) (acc us : List MultipartUpload),
      listUploadsForBucketAux bucket opts pages acc = .ok us →
      ∀ u ∈ us, u ∈ acc ∨ ∃ p, Except.ok p ∈ pages ∧ u ∈ convertUploads bucket p.uploads := by
  intro pages
  induction pages with
  | nil =>
    intro acc us h u hu
    simp only [listUploadsForBucketAux, Except.ok.injEq] at h
    exact Or.inl (h ▸ hu)
  | cons page rest ih =>
    intro acc us h u hu
    simp only [listUploadsForBucketAux] at h
    split at h
    · simp only [Except.ok.injEq] at h
      exact Or.inl (h ▸ hu)
    · split at h
      · simp at h
      · rename_i p
        split at h
        · rcases ih (acc ++ convertUploads bucket p.uploads) us h u hu with hmem | ⟨p', hp', hu'⟩
          · rcases List.mem_append.mp hmem with hmem | hmem
            · exact Or.inl hmem
            · exact Or.inr ⟨p, List.mem_cons_self _ _, hmem⟩
          · exact Or.inr ⟨p', List.mem_cons_of_mem _ hp', hu'⟩
        · simp only [Except.ok.injEq] at h
          rcases List.mem_append.mp (h ▸ hu) with hmem | hmem
          · exact Or.inl hmem
          · exact Or.inr ⟨p, List.mem_cons_self _ _, hmem⟩

/-- C9 (amended): every record produced by the per-bucket listing has Size 0
and a non-empty StorageClass (`STANDARD` when the remote entry carries none)
and takes its bucket and region from the listed bucket reference; a listing
entry whose key, upload id, or initiation timestamp is absent (a nil
pointer) is silently skipped, producing neither a record nor an error; and
provided the bucket reference's name and region are non-empty and the
present fields of the remote entries are non-empty/non-zero, every returned
record additionally has a non-empty bucket, key, upload id, region and a
non-zero initiation time.  (Without that proviso the skip condition checks
absence only, not emptiness — see the counterexample.) -/
theorem listBucketRecordInvariants (bucket : Bucket) (opts : ListOptions)
    (pages : List (Except String MUPage)) (us : List MultipartUpload)
    (h : listUploadsForBucket bucket opts pages = .ok us) :
    (∀ u ∈ us, u.size = 0 ∧ u.storageClass ≠ ""
        ∧ u.bucket = bucket.name ∧ u.region = bucket.region)
    ∧ (∀ r : RawUpload, (r.key = none ∨ r.uploadId = none ∨ r.initiated = none) →
        convertUploads bucket [r] = [])
    ∧ (bucket.name ≠ "" → bucket.region ≠ "" →
        (∀ p r, Except.ok p ∈ pages → r ∈ p.uploads →
          (∀ s, r.key = some s → s ≠ "") ∧ (∀ s, r.uploadId = some s → s ≠ "")
            ∧ (∀ t0, r.initiated = some t0 → t0 ≠ 0)) →
        ∀ u ∈ us, u.bucket ≠ "" ∧ u.key ≠ "" ∧ u.uploadID ≠ ""
          ∧ u.region ≠ "" ∧ u.initiated ≠ 0) := by
  have hmem := listUploadsForBucketAux_mem bucket opts pages [] us h
  refine ⟨?_, ?_, ?_⟩
  · intro u hu
    rcases hmem u hu with hc | ⟨p, _, hc⟩
    · simp at hc
    · obtain ⟨h1, h2, h3, h4, -⟩ := mem_convertUploads hc
      exact ⟨h1, h2, h3, h4⟩
  · intro r hr
    cases hk : r.key <;> cases hid : r.uploadId <;> cases hin : r.initiated <;>
      simp_all [convertUploads]
  · intro hbn hbr hgood u hu
    rcases hmem u hu with hc | ⟨p, hp, hc⟩
    · simp at hc
    · obtain ⟨-, -, h3, h4, r, hr, hk, hid, hin⟩ := mem_convertUploads hc
      obtain ⟨g1, g2, g3⟩ := hgood p r hp hr
      exact ⟨h3 ▸ hbn, g1 _ hk, g2 _ hid, h4 ▸ hbr, g3 _ hin⟩

/-- C9 counterexample: a listing page entry with a present-but-empty key is
not skipped — the skip condition checks only absence (a nil pointer) — so
the loop produces a record whose key is the empty string, which the
repository's own `MultipartUpload.Validate` rejects; this refutes the
claim's "every returned record has [a] non-empty … key". -/
theorem listBucketEmptyKeyRecord :
    listUploadsForBucket ⟨"b", "us-east-1"⟩ {}
        [.ok ⟨[⟨some "", some "id", some 5, ""⟩], some false⟩]
      = .ok [{ bucket := "b", key := "", uploadID := "id", initiated := 5, size := 0,
               storageClass := "STANDARD", region := "us-east-1" }]
    ∧ ({ bucket := "b", key := "", uploadID := "id", initiated := 5, size := 0,
         storageClass := "STANDARD", region := "us-east-1" } : MultipartUpload).key = ""
    ∧ MultipartUpload.validate
        { bucket := "b", key := "", uploadID := "id", initiated := 5, size := 0,
          storageClass := "STANDARD", region := "us-east-1" }
      = .error "key cannot be empty" :=
  ⟨rfl, rfl, rfl⟩

/-- C9 witness: the amended theorem applied to a one-page trace with one
well-formed entry and one entry lacking its upload id (which is skipped). -/
theorem listBucketRecordInvariantsWitness :
    (⟨"b", "k", "id", 5, 0, "STANDARD", "us-east-1"⟩ : MultipartUpload).size = 0
    ∧ (⟨"b", "k", "id", 5, 0, "STANDARD", "us-east-1"⟩ : MultipartUpload).storageClass ≠ ""
    ∧ (⟨"b", "k", "id", 5, 0, "STANDARD", "us-east-1"⟩ : MultipartUpload).bucket
        = (⟨"b", "us-east-1"⟩ : Bucket).name
    ∧ (⟨"b", "k", "id", 5, 0, "STANDARD", "us-east-1"⟩ : MultipartUpload).region
        = (⟨"b", "us-east-1"⟩ : Bucket).region := by
  exact (listBucketRecordInvariants ⟨"b", "us-east-1"⟩ {}
    [.ok ⟨[⟨some "k", some "id", some 5, ""⟩, ⟨some "k2", none, some 6, ""⟩], some false⟩]
    _ rfl).1 _ (by decide)

/-- Binding after a map fuses into one bind. -/
theorem bind_map_fuse {α β γ : Type} (g : α → β) (f : β → List γ) (l : List α) :
    (l.map g).bind f = l.bind (fun a => f (g a)) := by
  induction l with
  | nil => rfl
  | cons a t ih => simp [ih]

/-- C4: a failure in one bucket's listing does not abort the others:
`listUploadsForBuckets` (without pagination options) returns exactly the
concatenated records of the buckets whose listing succeeded — an errored
bucket contributes nothing and removes nothing — together with a single
aggregate error reporting the number k > 0 of failed buckets, or a nil error
when every bucket succeeded. -/
theorem listBucketsPartialFailureAggregate
    (pagesOf : Bucket → List (Except String MUPage)) (buckets : List Bucket)
    (opts : ListOptions) (k : Nat)
    (hoff : opts.offset = 0) (hmax : opts.maxResults = 0)
    (hk : k = (buckets.map fun b => listUploadsForBucket b opts (pagesOf b)).countP
      (fun r => isErrE r)) :
    (listUploadsForBuckets pagesOf buckets opts).1
      = buckets.bind (fun b =>
          match listUploadsForBucket b opts (pagesOf b) with
          | .ok us => us
          | .error _ => [])
    ∧ (0 < k → (listUploadsForBuckets pagesOf buckets opts).2
        = .error s!"failed to list uploads for some buckets: {k} errors occurred")
    ∧ (k = 0 → (listUploadsForBuckets pagesOf buckets opts).2 = .ok ()) := by
  have hall : (buckets.map fun b => listUploadsForBucket b opts (pagesOf b)).foldl
      (fun acc r => match r with | .ok us => acc ++ us | .error _ => acc) []
      = buckets.bind (fun b =>
          match listUploadsForBucket b opts (pagesOf b) with
          | .ok us => us
          | .error _ => []) := by
    rw [foldl_collectOk, List.nil_append, bind_map_fuse]
  simp only [listUploadsForBuckets, hoff, hmax, gt_iff_lt, lt_self_iff_false,
    or_self, if_false, hall, ← hk]
  by_cases hc : 0 < k
  · rw [if_pos hc]
    exact ⟨rfl, fun _ => rfl, fun h0 => absurd h0 (by omega)⟩
  · rw [if_neg hc]
    exact ⟨rfl, fun hpos => absurd hpos hc, fun _ => rfl⟩

/-- C4 witness: across three buckets with the middle one failing, the records
of the two successful buckets are returned together with an aggregate error
mentioning 1 failure. -/
theorem listBucketsPartialFailureAggregateWitness :
    (listUploadsForBuckets
        (fun b => if b.name == "b2" then [.error "AccessDenied"]
          else [.ok ⟨[⟨some "k", some "id", some 3, ""⟩], some false⟩])
        [⟨"b1", "us-east-1"⟩, ⟨"b2", "us-east-1"⟩, ⟨"b3", "eu-west-1"⟩] {}).2
      = .error "failed to list uploads for some buckets: 1 errors occurred"
    ∧ (listUploadsForBuckets
        (fun b => if b.name == "b2" then [.error "AccessDenied"]
          else [.ok ⟨[⟨some "k", some "id", some 3, ""⟩], some false⟩])
        [⟨"b1", "us-east-1"⟩, ⟨"b2", "us-east-1"⟩, ⟨"b3", "eu-west-1"⟩] {}).1
      = [{ bucket := "b1", key := "k", uploadID := "id", initiated := 3, size := 0,
           storageClass := "STANDARD", region := "us-east-1" },
         { bucket := "b3", key := "k", uploadID := "id", initiated := 3, size := 0,
           storageClass := "STANDARD", region := "eu-west-1" }] := by
  have h := listBucketsPartialFailureAggregate
    (fun b => if b.name == "b2" then [.error "AccessDenied"]
      else [.ok ⟨[⟨some "k", some "id", some 3, ""⟩], some false⟩])
    [⟨"b1", "us-east-1"⟩, ⟨"b2", "us-east-1"⟩, ⟨"b3", "eu-west-1"⟩] {} 1
    rfl rfl (by decide)
  exact ⟨h.2.1 (by decide), h.1.trans (by decide)⟩

/-- Requested page-cap bound of `applyPagination`: when a positive
`MaxResults` is set the returned slice never exceeds it. -/
theorem applyPagination_length_le (uploads : List MultipartUpload)
    (opts : ListOptions) (h : 0 < opts.maxResults) :
    ((applyPagination uploads opts).length : Int) ≤ opts.maxResults := by
  unfold applyPagination
  by_cases hs : opts.offset ≥ (uploads.length : Int)
  · rw [if_pos hs]
    simpa using le_of_lt h
  · rw [if_neg hs]
    by_cases hm : opts.offset + opts.maxResults < (uploads.length : Int)
    · rw [if_pos ⟨h, hm⟩]
      calc (((uploads.drop opts.offset.toNat).take
              (opts.offset + opts.maxResults - opts.offset).toNat).length : Int)
          ≤ ((opts.offset + opts.maxResults - opts.offset).toNat : Int) := by
            exact_mod_cast List.length_take_le _ _
        _ ≤ opts.maxResults := by omega
    · rw [if_neg (by tauto)]
      push_neg at hm
      simp only [List.length_take, List.length_drop]
      omega

/-- C10: in the multi-bucket listing path, an `Offset` at or past the number
of records collected across all (successfully listed) buckets yields an empty
list with a nil error — the Go slice expression is never indexed out of
range — and whenever `MaxResults` is positive the returned list never
exceeds it. -/
theorem listPaginationSafe (pagesOf : Bucket → List (Except String MUPage))
    (buckets : List Bucket) (opts : ListOptions) :
    ((∀ b ∈ buckets, isErrE (listUploadsForBucket b opts (pagesOf b)) = false) →
      ((buckets.bind (fun b =>
          match listUploadsForBucket b opts (pagesOf b) with
          | .ok us => us
          | .error _ => [])).length : Int) ≤ opts.offset →
      listUploadsForBuckets pagesOf buckets opts = ([], .ok ()))
    ∧ (0 < opts.maxResults →
        (((listUploadsForBuckets pagesOf buckets opts).1.length : Int))
          ≤ opts.maxResults) := by
  have hall : (buckets.map fun b => listUploadsForBucket b opts (pagesOf b)).foldl
      (fun acc r => match r with | .ok us => acc ++ us | .error _ => acc) []
      = buckets.bind (fun b =>
          match listUploadsForBucket b opts (pagesOf b) with
          | .ok us => us
          | .error _ => []) := by
    rw [foldl_collectOk, List.nil_append, bind_map_fuse]
  constructor
  · intro h0 hoffBig
    have hcnt : (buckets.map fun b => listUploadsForBucket b opts (pagesOf b)).countP
        (fun r => isErrE r) = 0 := by
      rw [List.countP_eq_zero]
      intro r hr
      obtain ⟨b, hb, rfl⟩ := List.mem_map.mp hr
      simp [h0 b hb]
    simp only [listUploadsForBuckets, hall, hcnt, lt_self_iff_false, gt_iff_lt,
      if_false]
    by_cases hcond : opts.offset > 0 ∨ opts.maxResults > 0
    · rw [if_pos hcond]
      unfold applyPagination
      rw [if_pos hoffBig]
    · rw [if_neg hcond]
      push_neg at hcond
      have : (buckets.bind (fun b =>
          match listUploadsForBucket b opts (pagesOf b) with
          | .ok us => us
          | .error _ => [])).length = 0 := by omega
      rw [List.length_eq_zero.mp this]
  · intro hmax
    have hcond : opts.offset > 0 ∨ opts.maxResults > 0 := Or.inr hmax
    simp only [listUploadsForBuckets, hall, gt_iff_lt] at *
    rw [if_pos hcond]
    by_cases hc : 0 < (buckets.map fun b => listUploadsForBucket b opts (pagesOf b)).countP
        (fun r => isErrE r) <;>
      simp only [hc, if_true, if_false] <;>
      exact applyPagination_length_le _ _ hmax

/-- C10 witness: the theorem applied to two single-record buckets with an
offset of 5 (past the 2 collected records) and, for the cap conjunct, a
positive `MaxResults` of 1. -/
theorem listPaginationSafeWitness :
    listUploadsForBuckets
        (fun _ => [.ok ⟨[⟨some "k", some "id", some 3, ""⟩], some false⟩])
        [⟨"b1", "us-east-1"⟩, ⟨"b2", "us-east-1"⟩] { offset := 5 }
      = ([], .ok ())
    ∧ (((listUploadsForBuckets
        (fun _ => [.ok ⟨[⟨some "k", some "id", some 3, ""⟩], some false⟩])
        [⟨"b1", "us-east-1"⟩, ⟨"b2", "us-east-1"⟩] { maxResults := 1 }).1.length : Int))
      ≤ (1 : Int) := by
  constructor
  · exact (listPaginationSafe
      (fun _ => [.ok ⟨[⟨some "k", some "id", some 3, ""⟩], some false⟩])
      [⟨"b1", "us-east-1"⟩, ⟨"b2", "us-east-1"⟩] { offset := 5 }).1
      (by decide) (by decide)
  · exact (listPaginationSafe
      (fun _ => [.ok ⟨[⟨some "k", some "id", some 3, ""⟩], some false⟩])
      [⟨"b1", "us-east-1"⟩, ⟨"b2", "us-east-1"⟩] { maxResults := 1 }).2
      (by decide)

/-- C1: for every upload list and every valid `DeleteOptions` with `DryRun`
set whose selector matches at least one record, `DeleteUploads` issues no
`AbortMultipartUpload` call (the issued-calls trace is empty, so no record
and no remote state is mutated) and returns a nil error after the dry-run
simulation produced its savings estimate and breakdown. -/
theorem dryRunDeleteIssuesNoAborts (now : Int)
    (abortOp : MultipartUpload → Except String Unit)
    (est : List MultipartUpload → Except String ℚ) (confirm : Except String Bool)
    (uploads : List MultipartUpload) (opts : DeleteOptions)
    (hv : opts.validate = .ok ())
    (hd : opts.dryRun = true)
    (hne : filterUploadsForDeletion now uploads opts ≠ []) :
    DeleteUploads now abortOp est confirm uploads opts = ([], .ok ()) := by
  have hemp : (filterUploadsForDeletion now uploads opts).isEmpty = false := by
    cases hF : filterUploadsForDeletion now uploads opts with
    | nil => exact absurd hF hne
    | cons a t => rfl
  simp [DeleteUploads, SimulateDeletion, hv, hemp, hd]

/-- C1 witness: a dry-run deletion over one matching record, with an abort
oracle that would fail if it were ever consulted, returns success with an
empty abort trace. -/
theorem dryRunDeleteIssuesNoAbortsWitness :
    DeleteUploads 1000 (fun _ => .error "must not be called") (fun _ => .ok 0)
      (.ok true)
      [{ bucket := "b", key := "k", uploadID := "id", initiated := 500, size := 7,
         storageClass := "STANDARD", region := "us-east-1" }]
      { dryRun := true } = ([], .ok ()) := by
  exact dryRunDeleteIssuesNoAborts 1000 _ _ _ _ _ rfl rfl (by decide)

/-- C2: for a batch of N records handed to the deletion loop, the return
value is nil if and only if every individual per-record abort succeeded; when
k > 0 of the N deletions fail the return value is a single aggregate error
stating that k out of N failed; and deletions that succeeded are not rolled
back — each successful record's abort call was issued and remains in the
batch's call trace (no compensating call exists), and the reported success
count is N - k.  Moreover the non-dry-run `DeleteUploads` path — selector
applied, then confirmation passed or forced — returns exactly this loop's
abort trace and return value on the selected batch. -/
theorem deleteBatchAggregateErrorSemantics
    (abortOp : MultipartUpload → Except String Unit) (uploads : List MultipartUpload)
    (k N : Nat)
    (hk : k = uploads.countP (deleteFails abortOp))
    (hN : N = uploads.length) :
    ((deleteUploadsWithProgress abortOp uploads).2.2 = .ok ()
      ↔ ∀ u ∈ uploads, (DeleteUpload abortOp u).2 = .ok ())
    ∧ (0 < k →
        (deleteUploadsWithProgress abortOp uploads).2.2
          = .error s!"failed to delete {k} out of {N} uploads")
    ∧ (deleteUploadsWithProgress abortOp uploads).2.1.successfulDeletes = N - k
    ∧ (∀ u ∈ uploads, (DeleteUpload abortOp u).2 = .ok () →
        u ∈ (deleteUploadsWithProgress abortOp uploads).1)
    ∧ ∀ (now : Int) (est : List MultipartUpload → Except String ℚ)
        (confirm : Except String Bool) (allUploads : List MultipartUpload)
        (opts : DeleteOptions),
        opts.validate = .ok () → opts.dryRun = false →
        (opts.force = true ∨ confirm = .ok true) →
        filterUploadsForDeletion now allUploads opts = uploads →
        uploads ≠ [] →
        DeleteUploads now abortOp est confirm allUploads opts
          = ((deleteUploadsWithProgress abortOp uploads).1,
             (deleteUploadsWithProgress abortOp uploads).2.2) := by
  have hlink : ∀ (now : Int) (est : List MultipartUpload → Except String ℚ)
      (confirm : Except String Bool) (allUploads : List MultipartUpload)
      (opts : DeleteOptions),
      opts.validate = .ok () → opts.dryRun = false →
      (opts.force = true ∨ confirm = .ok true) →
      filterUploadsForDeletion now allUploads opts = uploads →
      uploads ≠ [] →
      DeleteUploads now abortOp est confirm allUploads opts
        = ((deleteUploadsWithProgress abortOp uploads).1,
           (deleteUploadsWithProgress abortOp uploads).2.2) := by
    intro now est confirm allUploads opts hv hdr hfc hfilt hne
    have hemp : uploads.isEmpty = false := by
      cases hF : uploads with
      | nil => exact absurd hF hne
      | cons a t => rfl
    rcases hfc with hf | hc
    · simp [DeleteUploads, hv, hfilt, hdr, hf, hemp]
    · cases hforce : opts.force
      · simp [DeleteUploads, hv, hfilt, hdr, hforce, hc, hemp]
      · simp [DeleteUploads, hv, hfilt, hdr, hforce, hemp]
  refine ⟨?_, ?_, ?_, deleteUploadsWithProgress_mem_aborts abortOp uploads, hlink⟩
  · by_cases hnil : uploads = []
    · subst hnil
      simp [deleteUploadsWithProgress]
    · rw [deleteUploadsWithProgress_err abortOp uploads hnil]
      by_cases hc : 0 < uploads.countP (deleteFails abortOp)
      · rw [if_pos hc]
        constructor
        · intro h; exact absurd h (by simp)
        · intro hall
          exfalso
          obtain ⟨u, hu, hp⟩ := List.countP_pos_iff.mp hc
          rw [show deleteFails abortOp u = isErrE (DeleteUpload abortOp u).2 from rfl,
            hall u hu] at hp
          simp [isErrE] at hp
      · rw [if_neg hc]
        refine ⟨fun _ u hu => ?_, fun _ => rfl⟩
        have hz := List.countP_eq_zero.mp (Nat.eq_zero_of_not_pos hc) u hu
        exact (isErrE_eq_false_iff _).mp (Bool.not_eq_true _ ▸ hz)
  · intro hkpos
    have hnil : uploads ≠ [] := by
      rintro rfl
      rw [hk] at hkpos
      simp at hkpos
    rw [deleteUploadsWithProgress_err abortOp uploads hnil, hk, hN,
      if_pos (hk ▸ hkpos)]
  · rw [deleteUploadsWithProgress_succ abortOp uploads, hk, hN]

/-- C2 witness: a batch of two valid records where the abort of the first is
denied and the second succeeds returns the aggregate `1 out of 2` error, and
the successful second abort stays issued. -/
theorem deleteBatchAggregateErrorSemanticsWitness :
    (deleteUploadsWithProgress
        (fun u => if u.key == "k1" then .error "denied" else .ok ())
        [{ bucket := "b", key := "k1", uploadID := "id1", initiated := 5, size := 10,
           storageClass := "STANDARD", region := "us-east-1" },
         { bucket := "b", key := "k2", uploadID := "id2", initiated := 5, size := 20,
           storageClass := "STANDARD", region := "us-east-1" }]).2.2
      = .error "failed to delete 1 out of 2 uploads"
    ∧ { bucket := "b", key := "k2", uploadID := "id2", initiated := 5, size := 20,
        storageClass := "STANDARD", region := "us-east-1" }
      ∈ (deleteUploadsWithProgress
        (fun u => if u.key == "k1" then .error "denied" else .ok ())
        [{ bucket := "b", key := "k1", uploadID := "id1", initiated := 5, size := 10,
           storageClass := "STANDARD", region := "us-east-1" },
         { bucket := "b", key := "k2", uploadID := "id2", initiated := 5, size := 20,
           storageClass := "STANDARD", region := "us-east-1" }]).1 := by
  have h := deleteBatchAggregateErrorSemantics
    (fun u => if u.key == "k1" then .error "denied" else .ok ())
    [{ bucket := "b", key := "k1", uploadID := "id1", initiated := 5, size := 10,
       storageClass := "STANDARD", region := "us-east-1" },
     { bucket := "b", key := "k2", uploadID := "id2", initiated := 5, size := 20,
       storageClass := "STANDARD", region := "us-east-1" }] 1 2 (by decide) (by decide)
  exact ⟨h.2.1 (by decide), h.2.2.2.1 _ (by simp) rfl⟩

/-- Truncating duration conversion of an integral rational is that
integer. -/
theorem durOfRat_intCast (n : Int) : durOfRat ((n : ℚ)) = n := by
  unfold durOfRat
  rw [Rat.num_intCast, Rat.den_intCast]
  exact Int.ediv_one n

/-- Evaluation rule for `calculateBackoffDelay` when the exact product is an
integral value under the cap. -/
theorem calculateBackoffDelay_eval (cfg : RetryConfig) (k : Nat) (v : Int)
    (hq : (cfg.baseDelay : ℚ) * cfg.backoffFactor ^ k = ((v : Int) : ℚ))
    (hcap : ¬(v > cfg.maxDelay)) : calculateBackoffDelay cfg k = v := by
  unfold calculateBackoffDelay
  rw [hq, durOfRat_intCast, if_neg hcap]

/-- First backoff of the default configuration: 100 ms. -/
theorem backoffDefault0 : calculateBackoffDelay DefaultRetryConfig 0 = 100 * millisecond := by
  refine calculateBackoffDelay_eval _ _ _ ?_ ?_
  · show ((100 * millisecond : Int) : ℚ) * (2 : ℚ) ^ 0 = _
    norm_num
  · show ¬(100 * millisecond > 30 * second)
    norm_num [millisecond, second]

/-- Second backoff of the default configuration: 200 ms. -/
theorem backoffDefault1 : calculateBackoffDelay DefaultRetryConfig 1 = 200 * millisecond := by
  refine calculateBackoffDelay_eval _ _ _ ?_ ?_
  · show ((100 * millisecond : Int) : ℚ) * (2 : ℚ) ^ 1 = ((200 * millisecond : Int) : ℚ)
    norm_num [millisecond]
  · show ¬(200 * millisecond > 30 * second)
    norm_num [millisecond, second]

/-- Third backoff of the default configuration: 400 ms. -/
theorem backoffDefault2 : calculateBackoffDelay DefaultRetryConfig 2 = 400 * millisecond := by
  refine calculateBackoffDelay_eval _ _ _ ?_ ?_
  · show ((100 * millisecond : Int) : ℚ) * (2 : ℚ) ^ 2 = ((400 * millisecond : Int) : ℚ)
    norm_num [millisecond]
  · show ¬(400 * millisecond > 30 * second)
    norm_num [millisecond, second]

/-- C3 (amended): with the default retry configuration (base = 100 ms,
factor = 2, maxDelay = 30 s, maxRetries = 3), an operation that always
returns a retryable error is attempted exactly 4 times (1 initial +
3 retries) before the wrapped aggregate failure is returned, and the three
backoff sleeps are `min(100ms·2^k, 30s)` for attempt index `k = 0, 1, 2` —
so the third sleep is `min(400ms, 30s) = 400 ms`. -/
theorem retryDefaultConfigFourAttemptsBackoffs (op : Nat → Option String)
    (retryable : String → Bool) (hop : ∀ n, (op n).isSome = true)
    (hr : ∀ n e, op n = some e → retryable e = true) :
    (executeWithRetry DefaultRetryConfig op retryable).1 = 4
    ∧ (executeWithRetry DefaultRetryConfig op retryable).2.1
        = [100 * millisecond, 200 * millisecond, 400 * millisecond]
    ∧ isErrE (executeWithRetry DefaultRetryConfig op retryable).2.2 = true := by
  obtain ⟨ha, hs, herr⟩ :=
    retryAux_allRetryableFailures DefaultRetryConfig op retryable hop hr 3 0 []
  refine ⟨ha, ?_, herr⟩
  rw [show (executeWithRetry DefaultRetryConfig op retryable).2.1
      = (retryAux DefaultRetryConfig op retryable 3 0 []).2.1 from rfl, hs]
  simp [List.range_succ, backoffDefault0, backoffDefault1, backoffDefault2]

/-- C3 counterexample: under the default configuration the retry loop passes
the 0-based attempt index to `calculateBackoffDelay`, so the third (and last)
backoff sleep is `min(100ms·2^2, 30s) = 400 ms`, not the `min(800ms, 30s)`
stated by the claim; shown on an operation that always fails with the
retryable `SlowDown` error, classified by the embedded
`isRetryableError`. -/
theorem retryThirdBackoffIsNotEightHundredMs :
    (executeWithRetry DefaultRetryConfig (fun _ => some "SlowDown")
        isRetryableErrorStr).2.1[2]? = some (400 * millisecond)
    ∧ (400 * millisecond : Int) ≠ min (800 * millisecond) (30 * second) := by
  obtain ⟨-, hs, -⟩ :=
    retryAux_allRetryableFailures DefaultRetryConfig (fun _ => some "SlowDown")
      isRetryableErrorStr (fun _ => rfl) (fun n e he => by cases he; decide) 3 0 []
  constructor
  · rw [show (executeWithRetry DefaultRetryConfig (fun _ => some "SlowDown")
        isRetryableErrorStr).2.1
        = (retryAux DefaultRetryConfig (fun _ => some "SlowDown")
            isRetryableErrorStr 3 0 []).2.1 from rfl, hs]
    simp [List.range_succ, backoffDefault2]
  · rw [min_def]
    norm_num [millisecond, second]

/-- C3 witness: the amended theorem applied to an operation that always
fails with `SlowDown`, classified retryable by the embedded classifier. -/
theorem retryDefaultConfigFourAttemptsWitness :
    (executeWithRetry DefaultRetryConfig (fun _ => some "SlowDown")
        isRetryableErrorStr).1 = 4 := by
  exact (retryDefaultConfigFourAttemptsBackoffs (fun _ => some "SlowDown")
    isRetryableErrorStr (fun _ => rfl)
    (fun n e he => by cases he; decide)).1

/-- C8 (amended): a size predicate value is either a bare nonnegative integer
interpreted as bytes, or a number with unit B/KB/MB/GB/TB using 1024-based
multiples; for every nonnegative integer string of at least two characters,
parsing succeeds with its byte value and the `=`/`!=` predicates are exact
integer comparisons against the record size (`size=104857600` matches
exactly 100 MB).  Single-character values — the bare byte counts 0–9 — are
rejected by the minimum-length check of `parseSizeBytes` before the integer
parse is attempted. -/
theorem sizeBareIntegerParsesAndComparesExactly (cs : List Char)
    (h2 : 2 ≤ cs.length) (hd : cs.all isDigitCh = true) :
    parseSizeBytes (String.mk cs) = .ok ((digitsToNat cs : Int))
    ∧ (∀ u : MultipartUpload,
        matchesSizeFilter u ⟨"=", String.mk cs⟩ = decide (u.size = (digitsToNat cs : Int))
        ∧ matchesSizeFilter u ⟨"!=", String.mk cs⟩ = decide (u.size ≠ (digitsToNat cs : Int)))
    ∧ parseSizeBytes "104857600" = .ok (100 * 1024 * 1024)
    ∧ (∀ u : MultipartUpload,
        matchesSizeFilter u ⟨"=", "104857600"⟩ = decide (u.size = 100 * 1024 * 1024))
    ∧ parseSizeBytes "100B" = .ok 100
    ∧ parseSizeBytes "100KB" = .ok (100 * 1024)
    ∧ parseSizeBytes "100MB" = .ok (100 * 1024 * 1024)
    ∧ parseSizeBytes "100GB" = .ok (100 * 1024 * 1024 * 1024)
    ∧ parseSizeBytes "100TB" = .ok (100 * 1024 * 1024 * 1024 * 1024) := by
  have hp := parseSizeBytes_digits h2 hd
  refine ⟨hp, fun u => ⟨?_, ?_⟩, rfl, fun u => ?_, rfl, rfl, rfl, rfl, rfl⟩
  · simp only [matchesSizeFilter, hp]; rfl
  · simp only [matchesSizeFilter, hp]; rfl
  · rfl

/-- C8 counterexample: the claim's "for every nonnegative integer string n,
parsing `size=n` succeeds" fails at the single-digit string `5`:
`parseSizeBytes` rejects it (its length check requires at least two
characters before the bare-integer parse), so a `size=5` predicate matches
nothing. -/
theorem sizeSingleDigitValueRejected :
    parseSizeBytes "5" = .error "invalid size format: 5"
    ∧ ∀ u : MultipartUpload, matchesSizeFilter u ⟨"=", "5"⟩ = false :=
  ⟨rfl, fun _ => rfl⟩

/-- C8 witness: the amended theorem applied to the two-character numeral
`10`. -/
theorem sizeBareIntegerParsesWitness :
    parseSizeBytes (String.mk ['1', '0']) = .ok 10 := by
  have h := (sizeBareIntegerParsesAndComparesExactly ['1', '0'] (by decide) (by decide)).1
  simpa using h

/-- C6: for every record and every parsed age predicate, the operators `=`
and `!=` use a ±1-hour tolerance window instead of exact equality: `=`
matches iff the absolute difference between the record's age
(`now - initiated`) and the filter duration is at most 1 hour, `!=` iff that
difference exceeds 1 hour; in particular `age=7d` matches records aged
7 days ± 1 hour and rejects one 2 hours outside that window (which `!=`
accepts). -/
theorem ageFilterEqUsesOneHourTolerance (now : Int) (u : MultipartUpload) (d : Int) :
    (ageOpMatches (now - u.initiated) "=" d
        = decide (|now - u.initiated - d| ≤ hour)
      ∧ ageOpMatches (now - u.initiated) "!=" d
        = decide (hour < |now - u.initiated - d|))
    ∧ ∀ b k id sc r sz,
        matchesAgeFilter now ⟨b, k, id, now - (7 * day + hour), sz, sc, r⟩ ⟨"=", "7d"⟩ = true
        ∧ matchesAgeFilter now ⟨b, k, id, now - (7 * day - hour), sz, sc, r⟩ ⟨"=", "7d"⟩ = true
        ∧ matchesAgeFilter now ⟨b, k, id, now - (7 * day + 2 * hour), sz, sc, r⟩ ⟨"=", "7d"⟩ = false
        ∧ matchesAgeFilter now ⟨b, k, id, now - (7 * day + 2 * hour), sz, sc, r⟩ ⟨"!=", "7d"⟩ = true := by
  have hp : parseAgeDuration "7d" = .ok (7 * day) := rfl
  constructor
  · constructor
    · show (decide ((if now - u.initiated - d < 0 then -(now - u.initiated - d)
          else now - u.initiated - d) ≤ hour)) = _
      by_cases h : now - u.initiated - d < 0
      · rw [if_pos h, abs_of_neg h]
      · rw [if_neg h, abs_of_nonneg (not_lt.mp h)]
    · show (decide (hour < if now - u.initiated - d < 0 then -(now - u.initiated - d)
          else now - u.initiated - d)) = _
      by_cases h : now - u.initiated - d < 0
      · rw [if_pos h, abs_of_neg h]
      · rw [if_neg h, abs_of_nonneg (not_lt.mp h)]
  · intro b k id sc r sz
    refine ⟨?_, ?_, ?_, ?_⟩ <;>
      · simp only [matchesAgeFilter, hp]
        rw [show ∀ x : Int, now - (now - x) = x from fun x => by ring]
        decide

end S3mpc
